import Mathlib

/-! Shallow embedding of the FAT32 driver in src/kernel/src/fat32.cpp.

Modelling conventions:
* Machine bytes are natural numbers below 256; multi-byte little-endian fields
  are decoded and encoded with explicit arithmetic, and uintN wrap-around is
  written as an explicit % 2^N at the operations where the C code can wrap.
* A disk sector is a byte function Nat → Nat.  The block device maps an LBA to
  Option of such a function, none meaning the sector read fails.  Writing a
  sector always succeeds, because no claim exercises a write fault.
* The C globals (cached_disk, cached_partition, partition_start, fat_bs,
  fat_is) become an explicit St record threaded through the operations; the
  two cached sectors are Option values, none standing for the null pointer.
* Undefined behaviour of the source (dereferencing a null pointer, indexing a
  typed heap buffer past its end) is modelled as Except.error ().  The normal
  error returns of the source (false, 0, an empty result) stay inside
  Except.ok.
* Heap memory the source leaves uninitialised (the 256-byte long-name buffer,
  the freshly allocated directory cluster) is modelled as zero-filled; the
  theorems that touch such bytes depend only on the value being some fixed
  byte, not on it being zero.
-/

namespace Fat32

/-- Little-endian 16-bit field of a byte function. -/
def u16at (b : Nat → Nat) (o : Nat) : Nat := b o + 256 * b (o + 1)

/-- Little-endian 32-bit field of a byte function. -/
def u32at (b : Nat → Nat) (o : Nat) : Nat :=
  b o + 256 * b (o + 1) + 65536 * b (o + 2) + 16777216 * b (o + 3)

/-- Byte k of the little-endian encoding of a 32-bit value. -/
def u32byte (v k : Nat) : Nat := v / 256 ^ k % 256

/-- Byte k (k = 0 low, k = 1 high) of the little-endian encoding of a 16-bit value. -/
def byteOfU16 (v k : Nat) : Nat := if k = 0 then v % 256 else v / 256 % 256

/-- A partition descriptor: starting LBA and unique identifier (disks.hpp interface). -/
structure PartitionDesc where
  start : Nat
  uuid : Nat
deriving DecidableEq

/-- A disk device: unique identifier plus sector contents, none = unreadable sector. -/
structure Dev where
  uuid : Nat
  data : Nat → Option (Nat → Nat)

/-- The fields of the FAT32 boot sector consumed by the driver (struct fat_bs_t). -/
structure BootSector where
  bytes_per_sector : Nat
  sectors_per_cluster : Nat
  reserved_sectors : Nat
  number_of_fat : Nat
  sectors_per_fat : Nat
  sectors_per_fat_long : Nat
  root_directory_cluster_start : Nat
  fs_information_sector : Nat
deriving DecidableEq

/-- Decode the consumed boot-sector fields from the raw sector bytes, at the
byte offsets fixed by the packed struct fat_bs_t. -/
def parse_bs (b : Nat → Nat) : BootSector where
  bytes_per_sector := u16at b 11
  sectors_per_cluster := b 13
  reserved_sectors := u16at b 14
  number_of_fat := b 16
  sectors_per_fat := u16at b 22
  sectors_per_fat_long := u32at b 36
  root_directory_cluster_start := u32at b 44
  fs_information_sector := u16at b 48

/-- The driver's global cache state: the C file-scope variables cached_disk,
cached_partition, partition_start, fat_bs and fat_is.  The FS-information
sector is kept as its raw 512 bytes because write_is writes it back verbatim. -/
structure St where
  cached_disk : Nat
  cached_partition : Nat
  partition_start : Nat
  fat_bs : Option BootSector
  fat_is : Option (Nat → Nat)

/-- read_sectors collaborator: count sectors starting at lba, concatenated into
one byte function; fails when any sector is unreadable. -/
def read_sectors (d : Dev) (lba count : Nat) : Option (Nat → Nat) :=
  if (List.range count).all (fun k => (d.data (lba + k)).isSome) then
    some fun i =>
      match d.data (lba + i / 512) with
      | some s => s (i % 512)
      | none => 0
  else none

/-- write_sectors collaborator: overwrite count sectors starting at lba. -/
def write_sectors (d : Dev) (lba count : Nat) (content : Nat → Nat) : Dev :=
  { d with
    data := fun s =>
      if lba ≤ s ∧ s < lba + count then some fun off => content ((s - lba) * 512 + off)
      else d.data s }

/-- cache_bs: read the boot sector of the partition; on failure the cached
pointer becomes null. -/
def cache_bs (st : St) (d : Dev) (p : PartitionDesc) : St :=
  match read_sectors d p.start 1 with
  | some b => { st with fat_bs := some (parse_bs b) }
  | none => { st with fat_bs := none }

/-- cache_is: read the FS-information sector.  The source dereferences fat_bs
unconditionally for the sector number, so a null fat_bs is a fault. -/
def cache_is (st : St) (d : Dev) (p : PartitionDesc) : Except Unit St :=
  match st.fat_bs with
  | none => .error ()
  | some bs =>
    match read_sectors d (p.start + bs.fs_information_sector) 1 with
    | some b => .ok { st with fat_is := some b }
    | none => .ok { st with fat_is := none }

/-- cache_disk_partition: reload both cached sectors when the addressed
(disk, partition) pair differs from the cached one, then report whether both
cached sectors are present. -/
def cache_disk_partition (st : St) (d : Dev) (p : PartitionDesc) : Except Unit (St × Bool) :=
  if st.cached_disk = d.uuid ∧ st.cached_partition = p.uuid then
    .ok (st, st.fat_bs.isSome && st.fat_is.isSome)
  else
    let st1 := { st with partition_start := p.start }
    let st2 := cache_bs st1 d p
    match cache_is st2 d p with
    | .error e => .error e
    | .ok st3 =>
      let st4 := { st3 with cached_disk := d.uuid, cached_partition := p.uuid }
      .ok (st4, st4.fat_bs.isSome && st4.fat_is.isSome)

/-- write_is: persist the cached FS-information sector.  The source
dereferences both cached pointers. -/
def write_is (st : St) (d : Dev) (p : PartitionDesc) : Except Unit (Dev × Bool) :=
  match st.fat_bs, st.fat_is with
  | some bs, some isb => .ok (write_sectors d (p.start + bs.fs_information_sector) 1 isb, true)
  | _, _ => .error ()

/-- cluster_lba: absolute sector of a data cluster. -/
def cluster_lba (bs : BootSector) (ps cluster : Nat) : Nat :=
  ps + bs.reserved_sectors + bs.number_of_fat * bs.sectors_per_fat_long +
    (cluster - 2) * bs.sectors_per_cluster

/-- read_fat_value, with the boot sector and partition start in hand.  The
source indexes the 128-entry sector buffer at cluster % 512; an index of 128
or more is an out-of-bounds access of the typed heap buffer, a fault. -/
def read_fat_value_core (d : Dev) (bs : BootSector) (ps cluster : Nat) : Except Unit Nat :=
  let fat_begin := ps + bs.reserved_sectors
  let fat_sector := fat_begin + cluster * 4 / 512
  match read_sectors d fat_sector 1 with
  | some b =>
    let entry_offset := cluster % 512
    if entry_offset < 128 then .ok (u32at b (4 * entry_offset) % 268435456)
    else .error ()
  | none => .ok 0

/-- read_fat_value as in the source: dereferences the cached boot sector. -/
def read_fat_value (st : St) (d : Dev) (cluster : Nat) : Except Unit Nat :=
  match st.fat_bs with
  | none => .error ()
  | some bs => read_fat_value_core d bs st.partition_start cluster

/-- write_fat_value: read-modify-write of the FAT sector holding the entry,
with the same cluster % 512 indexing as the read path. -/
def write_fat_value_core (d : Dev) (bs : BootSector) (ps cluster value : Nat) :
    Except Unit (Dev × Bool) :=
  let fat_begin := ps + bs.reserved_sectors
  let fat_sector := fat_begin + cluster * 4 / 512
  match read_sectors d fat_sector 1 with
  | none => .ok (d, false)
  | some b =>
    let entry_offset := cluster % 512
    if entry_offset < 128 then
      let sector := fun off =>
        u32byte (if off / 4 = entry_offset then value % 4294967296 else u32at b (off / 4 * 4))
          (off % 4)
      .ok (write_sectors d fat_sector 1 sector, true)
    else .error ()

/-- write_fat_value as in the source: dereferences the cached boot sector. -/
def write_fat_value (st : St) (d : Dev) (cluster value : Nat) : Except Unit (Dev × Bool) :=
  match st.fat_bs with
  | none => .error ()
  | some bs => write_fat_value_core d bs st.partition_start cluster value

/-- next_cluster: FAT successor, 0 when the entry is an end-of-chain sentinel. -/
def next_cluster_core (d : Dev) (bs : BootSector) (ps cluster : Nat) : Except Unit Nat :=
  match read_fat_value_core d bs ps cluster with
  | .error e => .error e
  | .ok v => .ok (if 268435448 ≤ v then 0 else v)

/-- fat_size: total FAT size in sectors, long field plus legacy 16-bit field. -/
def fat_size (bs : BootSector) : Nat := bs.sectors_per_fat_long + bs.sectors_per_fat

/-- Inner loop of find_free_cluster over one 128-entry FAT sector: first entry
whose 28-bit value is 0, skipping entries 0 and 1 of the first sector. -/
def scan_fat_sector (b : Nat → Nat) (j : Nat) : Option Nat :=
  (List.range 128).find? fun i =>
    !(j == 0 && decide (i < 2)) && (u32at b (4 * i) % 268435456 == 0)

/-- Outer loop of find_free_cluster.  The source advances the sector by
j * sectors_per_cluster per iteration while numbering clusters as if it had
advanced by one sector. -/
def ffc_loop (d : Dev) (bs : BootSector) (fat_begin : Nat) : Nat → Nat → Nat
  | 0, _ => 0
  | r + 1, j =>
    match read_sectors d (fat_begin + j * bs.sectors_per_cluster) 1 with
    | none => 0
    | some b =>
      match scan_fat_sector b j with
      | some i => i + j * 128
      | none => ffc_loop d bs fat_begin r (j + 1)

/-- find_free_cluster with the boot sector in hand: 0 on full or failure. -/
def find_free_cluster_core (d : Dev) (bs : BootSector) (ps : Nat) : Nat :=
  ffc_loop d bs (ps + bs.reserved_sectors) (fat_size bs) 0

/-- find_free_cluster as in the source: dereferences the cached boot sector. -/
def find_free_cluster (st : St) (d : Dev) : Except Unit Nat :=
  match st.fat_bs with
  | none => .error ()
  | some bs => .ok (find_free_cluster_core d bs st.partition_start)

/-- A 32-byte directory entry, viewed as its bytes (struct cluster_entry and
struct long_entry share this memory). -/
abbrev Entry := Nat → Nat

/-- The all-zero entry, used as the default for out-of-range list reads. -/
def dEnt : Entry := fun _ => 0

/-- Byte 0 of an entry: name[0] of an SDE, sequence_number of an LDE. -/
def name0 (e : Entry) : Nat := e 0

/-- Little-endian 16-bit field of an entry. -/
def entryU16 (e : Entry) (o : Nat) : Nat := e o + 256 * e (o + 1)

/-- Little-endian 32-bit field of an entry. -/
def entryU32 (e : Entry) (o : Nat) : Nat :=
  e o + 256 * e (o + 1) + 65536 * e (o + 2) + 16777216 * e (o + 3)

/-- Overwrite one byte of an entry. -/
def setByte (e : Entry) (o v : Nat) : Entry := fun j => if j = o then v else e j

/-- Overwrite name[0] of an entry. -/
def setName0 (e : Entry) (v : Nat) : Entry := setByte e 0 v

/-- Byte offset of UCS-2 code unit u of an LDE: name_first occupies offsets
1..10, name_second 14..25, name_third 28..31. -/
def ldeUnitOff (u : Nat) : Nat :=
  if u < 5 then 1 + 2 * u else if u < 11 then 4 + 2 * u else 6 + 2 * u

/-- Code unit u of an LDE. -/
def ldeUnit (e : Entry) (u : Nat) : Nat := entryU16 e (ldeUnitOff u)

/-- View the 512 * sectors_per_cluster bytes of a directory cluster as its
list of 32-byte entries. -/
def bufToEntries (b : Nat → Nat) (n : Nat) : List Entry :=
  (List.range n).map fun k => fun i => b (32 * k + i)

/-- Serialize a list of entries back into cluster bytes for write_sectors. -/
def bufBytes (buf : List Entry) : Nat → Nat := fun i => buf.getD (i / 32) dEnt (i % 32)

/-- The caller-visible record for one file (struct disks::file). -/
structure FileRec where
  file_name : List Nat
  hidden : Bool
  system : Bool
  directory : Bool
  size : Nat
  location : Nat
deriving DecidableEq

/-- The loop state of the directory decoder in files: the long_name flag, the
256-byte long-name buffer (uninitialised in the source, zero here) and the
populated length i. -/
structure DecSt where
  long_name : Bool
  buf : Nat → Nat
  len : Nat

/-- Initial decoder state at the top of files. -/
def dec0 : DecSt := { long_name := false, buf := fun _ => 0, len := 0 }

/-- Decode one LDE into the long-name buffer: 13 code units placed from
((sequence_number cleared of 0x40) - 1) * 13, stopping at the first unit equal
to 0x0 or 0xFF, each stored unit truncated to a char. -/
def decodeLDE (st : DecSt) (e : Entry) : DecSt :=
  let l0 := (Nat.land (e 0) 191 - 1) * 13
  let r := (List.range 13).foldl
    (fun acc u =>
      if acc.2.2 then acc
      else
        let v := ldeUnit e u
        if v = 0 ∨ v = 255 then (acc.1, acc.2.1, true)
        else ((fun j => if j = acc.2.1 then v % 256 else acc.1 j), acc.2.1 + 1, false))
    (st.buf, l0, false)
  { long_name := true, buf := r.1, len := max st.len r.2.1 }

/-- Build the file record for an SDE, consuming a pending long name when one
was accumulated, else the 11-byte name truncated at the first space. -/
def mkRecord (bs : BootSector) (st : DecSt) (e : Entry) : FileRec × DecSt :=
  let name :=
    if st.long_name then (List.range st.len).map st.buf
    else ((List.range 11).map e).takeWhile fun b => !(b == 32)
  let dir : Bool := Nat.land (e 11) 16 != 0
  let f : FileRec :=
    { file_name := name
      hidden := Nat.land (e 11) 1 != 0
      system := Nat.land (e 11) 2 != 0
      directory := dir
      size := if dir then bs.sectors_per_cluster * 512 else entryU32 e 28
      location := entryU16 e 26 + 65536 * entryU16 e 20 }
  if st.long_name then (f, { st with long_name := false, len := 0 }) else (f, st)

/-- The entry loop of files over one cluster buffer: stops the whole traversal
at an end-of-directory entry, skips unused (0xE5) entries without resetting
the long-name state, accumulates LDEs, emits a record at each SDE. -/
def decodeEntries (bs : BootSector) : List Entry → DecSt → List FileRec × Bool × DecSt
  | [], st => ([], false, st)
  | e :: rest, st =>
    if name0 e = 0 then ([], true, st)
    else if name0 e = 229 then decodeEntries bs rest st
    else if e 11 = 15 then decodeEntries bs rest (decodeLDE st e)
    else
      let p := mkRecord bs st e
      let r := decodeEntries bs rest p.2
      (p.1 :: r.1, r.2.1, r.2.2)

/-- Fuel bound for cluster-chain walks; 2^28 exceeds every possible FAT32
cluster count, so the source loop and the fuelled recursion agree on any
image a claim quantifies over. -/
def FUEL : Nat := 268435456

/-- The cluster-chain loop of files: read each cluster of the chain, decode
its entries, follow next_cluster until end of directory, end of chain, the
bad-cluster sentinel, or a read failure. -/
def filesAux (d : Dev) (bs : BootSector) (ps : Nat) : Nat → Nat → DecSt → Except Unit (List FileRec)
  | 0, _, _ => .ok []
  | fuel + 1, cn, st =>
    match read_sectors d (cluster_lba bs ps cn) bs.sectors_per_cluster with
    | none => .ok []
    | some b =>
      match decodeEntries bs (bufToEntries b (16 * bs.sectors_per_cluster)) st with
      | (recs, true, _) => .ok recs
      | (recs, false, st2) =>
        match next_cluster_core d bs ps cn with
        | .error e => .error e
        | .ok nxt =>
          if nxt = 0 then .ok recs
          else if nxt = 268435447 then .ok recs
          else
            match filesAux d bs ps fuel nxt st2 with
            | .error e => .error e
            | .ok rest => .ok (recs ++ rest)

/-- files(disk, cluster): all files of the directory rooted at a cluster. -/
def files (d : Dev) (bs : BootSector) (ps cn : Nat) : Except Unit (List FileRec) :=
  filesAux d bs ps FUEL cn dec0

/-- The per-segment loop of find_cluster_number: list the current directory
and take the first entry whose name equals the segment, requiring a directory
for non-tail segments. -/
def fcn_loop (d : Dev) (bs : BootSector) (ps : Nat) : List (List Nat) → Nat → Except Unit (Bool × Nat)
  | [], _ => .ok (false, 0)
  | seg :: rest, cn =>
    match files d bs ps cn with
    | .error e => .error e
    | .ok entries =>
      match entries.find? (fun f => (rest.isEmpty || f.directory) && f.file_name == seg) with
      | some f => if rest.isEmpty then .ok (true, f.location) else fcn_loop d bs ps rest f.location
      | none => .ok (false, 0)

/-- find_cluster_number: resolve a path from the root directory cluster. -/
def find_cluster_number (d : Dev) (bs : BootSector) (ps : Nat) (path : List (List Nat)) :
    Except Unit (Bool × Nat) :=
  if path.isEmpty then .ok (true, bs.root_directory_cluster_start)
  else fcn_loop d bs ps path bs.root_directory_cluster_start

/-- files(disk, path): the by-path listing, empty when resolution fails. -/
def files_path (d : Dev) (bs : BootSector) (ps : Nat) (path : List (List Nat)) :
    Except Unit (List FileRec) :=
  match find_cluster_number d bs ps path with
  | .error e => .error e
  | .ok (false, _) => .ok []
  | .ok (true, cn) => files d bs ps cn

/-- number_of_entries: slots needed for a name, one trailing LDE per 11 name
bytes plus the SDE. -/
def number_of_entries (name : List Nat) : Nat := (name.length - 1) / 11 + 2

/-- An entry find_free_entry treats as free: end-of-directory or unused. -/
def entFree (e : Entry) : Bool := name0 e == 0 || name0 e == 229

/-- First phase of find_free_entry: index of the first end-of-directory entry. -/
def findZeroFrom : List Entry → Nat → Option Nat
  | [], _ => none
  | e :: r, i => if name0 e = 0 then some i else findZeroFrom r (i + 1)

/-- Second phase of find_free_entry: the running-counter scan for the first
run of n consecutive free entries, returning (sequence_start, sequence_end).
Falling off the loop keeps the C defaults sequence_start = sequence_end = 0,
accepted only when the final counter still equals n. -/
def runScan (n : Nat) : List Entry → Nat → Nat → Option (Nat × Nat)
  | [], _, cnt => if cnt = n then some (0, 0) else none
  | e :: r, i, cnt =>
    if entFree e then
      if cnt + 1 = n then some (i - (n - 1), i)
      else runScan n r (i + 1) (cnt + 1)
    else runScan n r (i + 1) 0

/-- Third phase of find_free_entry: scan downward from the last slot while the
slots stay free, stopping above sequence_end; the accumulator holds the lowest
free index seen, the C new_end. -/
def downScan (buf : List Entry) (seqEnd : Nat) : Nat → Option Nat → Option Nat
  | 0, acc => acc
  | i + 1, acc =>
    if i + 1 ≤ seqEnd then acc
    else if entFree (buf.getD (i + 1) dEnt) then downScan buf seqEnd i (some (i + 1))
    else acc

/-- find_free_entry: locate n consecutive free slots; when the run reaches or
passes the end-of-directory marker, mark the old end unused and plant a new
end marker beyond the run.  none models the source returning nullptr. -/
def find_free_entry (buf : List Entry) (entries : Nat) : Option (List Entry × Nat) :=
  match findZeroFrom buf 0 with
  | none => none
  | some endIdx =>
    match runScan entries buf 0 0 with
    | none => none
    | some (seqStart, seqEnd) =>
      if endIdx ≤ seqEnd then
        match downScan buf seqEnd (buf.length - 1) none with
        | none => none
        | some newEnd =>
          let buf1 := buf.set endIdx (setName0 (buf.getD endIdx dEnt) 229)
          let buf2 := buf1.set newEnd (setName0 (buf1.getD newEnd dEnt) 0)
          some (buf2, seqStart)
      else some (buf, seqStart)

/-- static_cast of a char holding byte b to uint16_t: sign extension for
bytes 128..255. -/
def sext16 (b : Nat) : Nat := if b < 128 then b else 65280 + b

/-- One step of the checksum loop in init_entry, on the byte value of the
running char sum.  sum is a signed char in the source, so sum >> 1 is an
arithmetic shift of its signed value (floor division), and the assignment back
to char truncates modulo 256. -/
def csum_step (s v : Nat) : Nat :=
  let sInt : Int := if s < 128 then (s : Int) else (s : Int) - 256
  let vInt : Int := if v < 128 then (v : Int) else (v : Int) - 256
  (((if s % 2 = 1 then (128 : Int) else 0) + Int.fdiv sInt 2 + vInt).emod 256).toNat

/-- The alias checksum computed by init_entry: eleven steps over the name
bytes, space-padded past the end of the name. -/
def alias_checksum_code (name : List Nat) : Nat :=
  (List.range 11).foldl (fun s c => csum_step s (if c < name.length then name.getD c 0 else 32)) 0

/-- Code unit idx of the LFN stream: the name byte sign-extended to UCS-2
while the running index is below the length, 0xFF (stored in a uint16, hence
0x00FF) afterwards. -/
def ldeUnitValue (name : List Nat) (idx : Nat) : Nat :=
  if idx < name.length then sext16 (name.getD idx 0) else 255

/-- The LDE that the loop of init_entry writes for sequence seq (0-based) of
sequences, with the running name index i0 = 13 * seq.  Every byte of the
32-byte slot is written by the loop, so the entry is built outright. -/
def mkLDE (name : List Nat) (seq sequences csum i0 : Nat) : Entry := fun o =>
  if o = 0 then (if seq = sequences - 1 then Nat.lor (seq + 1) 64 else seq + 1)
  else if o = 11 then 15
  else if o = 12 then 0
  else if o = 13 then csum % 256
  else if o = 26 ∨ o = 27 then 0
  else if 1 ≤ o ∧ o ≤ 10 then byteOfU16 (ldeUnitValue name (i0 + (o - 1) / 2)) ((o - 1) % 2)
  else if 14 ≤ o ∧ o ≤ 25 then byteOfU16 (ldeUnitValue name (i0 + 5 + (o - 14) / 2)) ((o - 14) % 2)
  else if 28 ≤ o ∧ o ≤ 31 then byteOfU16 (ldeUnitValue name (i0 + 11 + (o - 28) / 2)) ((o - 28) % 2)
  else 0

/-- The while loop of init_entry writing the LDE slots, advancing one slot per
sequence. -/
def writeLFNAux (name : List Nat) (sequences csum : Nat) : Nat → Nat → List Entry → Nat → List Entry
  | 0, _, buf, _ => buf
  | r + 1, seq, buf, pos =>
    writeLFNAux name sequences csum r (seq + 1)
      (buf.set pos (mkLDE name seq sequences csum (13 * seq))) (pos + 1)

/-- The SDE part of init_entry: copy up to 11 name bytes and space-pad, zero
the date/time fields, the reserved byte and the file size, split the starting
cluster.  The attribute byte 11 is not written here; the callers set it. -/
def mkSDE (old : Entry) (name : List Nat) (cluster : Nat) : Entry := fun o =>
  if o < 11 then (if o < name.length then name.getD o 0 else 32)
  else if o = 11 then old 11
  else if o = 12 then 0
  else if o = 13 then 0
  else if 14 ≤ o ∧ o ≤ 19 then 0
  else if o = 20 then cluster / 65536 % 256
  else if o = 21 then cluster / 16777216 % 256
  else if 22 ≤ o ∧ o ≤ 25 then 0
  else if o = 26 then cluster % 256
  else if o = 27 then cluster / 256 % 256
  else if 28 ≤ o ∧ o ≤ 31 then 0
  else old o

/-- init_entry: optionally the LFN prelude, then the SDE; returns the written
buffer and the index of the SDE slot (the returned entry pointer). -/
def init_entry (isLong : Bool) (buf : List Entry) (pos : Nat) (name : List Nat) (cluster : Nat) :
    List Entry × Nat :=
  let r :=
    if isLong then
      let sequences := (name.length - 1) / 11 + 1
      (writeLFNAux name sequences (alias_checksum_code name) sequences 0 buf pos, pos + sequences)
    else (buf, pos)
  (r.1.set r.2 (mkSDE (r.1.getD r.2 dEnt) name cluster), r.2)

/-- init_directory_entry: init_entry then attribute 0x10 on the SDE. -/
def init_directory_entry (isLong : Bool) (buf : List Entry) (pos : Nat) (name : List Nat)
    (cluster : Nat) : List Entry :=
  let r := init_entry isLong buf pos name cluster
  r.1.set r.2 (setByte (r.1.getD r.2 dEnt) 11 16)

/-- init_file_entry: init_entry then attribute 0 on the SDE. -/
def init_file_entry (isLong : Bool) (buf : List Entry) (pos : Nat) (name : List Nat)
    (cluster : Nat) : List Entry :=
  let r := init_entry isLong buf pos name cluster
  r.1.set r.2 (setByte (r.1.getD r.2 dEnt) 11 0)

/-- Overwrite the free_clusters field (bytes 488..491) of the cached
FS-information sector. -/
def set_free_clusters (isb : Nat → Nat) (v : Nat) : Nat → Nat := fun o =>
  if o = 488 then v % 256
  else if o = 489 then v / 256 % 256
  else if o = 490 then v / 65536 % 256
  else if o = 491 then v / 16777216 % 256
  else isb o

/-- The loop of mkdir marking slots 2 .. size-2 of the fresh directory cluster
as unused. -/
def markUnused (buf : List Entry) : List Entry :=
  buf.mapIdx fun j e => if 2 ≤ j ∧ j + 1 < buf.length then setName0 e 229 else e

/-- free_size: free_clusters * sectors_per_cluster * 512 in uint32 arithmetic,
0 when the cache cannot be populated. -/
def free_size (st : St) (d : Dev) (p : PartitionDesc) : Except Unit (St × Nat) :=
  match cache_disk_partition st d p with
  | .error e => .error e
  | .ok (st1, ok) =>
    if ok then
      match st1.fat_bs, st1.fat_is with
      | some bs, some isb => .ok (st1, u32at isb 488 * bs.sectors_per_cluster * 512 % 4294967296)
      | _, _ => .error ()
    else .ok (st1, 0)

/-- ls: ensure the cache, resolve the path, list. -/
def ls (st : St) (d : Dev) (p : PartitionDesc) (path : List (List Nat)) :
    Except Unit (St × List FileRec) :=
  match cache_disk_partition st d p with
  | .error e => .error e
  | .ok (st1, ok) =>
    if ok then
      match st1.fat_bs with
      | none => .error ()
      | some bs =>
        match files_path d bs st1.partition_start path with
        | .error e => .error e
        | .ok recs => .ok (st1, recs)
    else .ok (st1, [])

/-- The while loop of read_file: copy cluster bytes until file_size bytes were
read, following next_cluster, stopping on a read failure, end of chain or the
bad-cluster sentinel.  The accumulated content plays the role of the read
counter of the source; the source's string constructor argument
(file_size + 1) is taken as a capacity reservation, as the appends that
follow and the specification's copying description imply. -/
def read_loop (d : Dev) (bs : BootSector) (ps fsize : Nat) :
    Nat → Nat → List Nat → Except Unit (List Nat)
  | 0, _, content => .ok content
  | fuel + 1, cn, content =>
    match read_sectors d (cluster_lba bs ps cn) bs.sectors_per_cluster with
    | none => .ok content
    | some b =>
      let csize := 512 * bs.sectors_per_cluster
      let content2 := content ++ (List.range (min csize (fsize - content.length))).map b
      if content2.length < fsize then
        match next_cluster_core d bs ps cn with
        | .error e => .error e
        | .ok nxt =>
          if nxt = 0 then .ok content2
          else if nxt = 268435447 then .ok content2
          else read_loop d bs ps fsize fuel nxt content2
      else .ok content2

/-- read_file: locate the entry by name in the parent listing, then copy its
size field's worth of bytes from its cluster chain. -/
def read_file (st : St) (d : Dev) (p : PartitionDesc) (path : List (List Nat))
    (fname : List Nat) : Except Unit (St × List Nat) :=
  match cache_disk_partition st d p with
  | .error e => .error e
  | .ok (st1, ok) =>
    if ok then
      match st1.fat_bs with
      | none => .error ()
      | some bs =>
        match files_path d bs st1.partition_start path with
        | .error e => .error e
        | .ok recs =>
          match recs.find? (fun f => f.file_name == fname) with
          | none => .ok (st1, [])
          | some f =>
            if f.size = 0 then .ok (st1, [])
            else
              match read_loop d bs st1.partition_start f.size FUEL f.location [] with
              | .error e => .error e
              | .ok content => .ok (st1, content)
    else .ok (st1, [])

/-- mkdir: resolve the parent, allocate a cluster, place the new entry run in
the parent cluster, write it back, terminate the new chain in the FAT, update
the free counter, and write the fresh cluster holding the dot entries.  The
source passes the result of find_free_entry to init_directory_entry without a
null check, so a failed entry search is a fault. -/
def mkdir (st : St) (d : Dev) (p : PartitionDesc) (path : List (List Nat))
    (directory : List Nat) : Except Unit (St × Dev × Bool) :=
  match cache_disk_partition st d p with
  | .error e => .error e
  | .ok (st1, ok) =>
    if ok then
      match st1.fat_bs with
      | none => .error ()
      | some bs =>
        match find_cluster_number d bs st1.partition_start path with
        | .error e => .error e
        | .ok (false, _) => .ok (st1, d, false)
        | .ok (true, parent) =>
          let cluster := find_free_cluster_core d bs st1.partition_start
          if cluster = 0 then .ok (st1, d, false)
          else
            match read_sectors d (cluster_lba bs st1.partition_start parent)
                bs.sectors_per_cluster with
            | none => .ok (st1, d, false)
            | some b =>
              match find_free_entry (bufToEntries b (16 * bs.sectors_per_cluster))
                  (number_of_entries directory) with
              | none => .error ()
              | some (buf2, start) =>
                let buf3 := init_directory_entry true buf2 start directory cluster
                let d1 := write_sectors d (cluster_lba bs st1.partition_start parent)
                  bs.sectors_per_cluster (bufBytes buf3)
                match write_fat_value_core d1 bs st1.partition_start cluster 268435448 with
                | .error e => .error e
                | .ok (d2, wok) =>
                  if wok then
                    match st1.fat_is with
                    | none => .error ()
                    | some isb =>
                      let isb2 := set_free_clusters isb
                        ((u32at isb 488 + 4294967295) % 4294967296)
                      let st2 := { st1 with fat_is := some isb2 }
                      match write_is st2 d2 p with
                      | .error e => .error e
                      | .ok (d3, iok) =>
                        if iok then
                          let nbuf0 : List Entry :=
                            List.replicate (16 * bs.sectors_per_cluster) dEnt
                          let nbuf1 := init_directory_entry false nbuf0 0 [46] cluster
                          let nbuf2 := init_directory_entry false nbuf1 1 [46, 46] parent
                          let nbuf3 := markUnused nbuf2
                          let nbuf4 := nbuf3.set (nbuf3.length - 1)
                            (setName0 (nbuf3.getD (nbuf3.length - 1) dEnt) 0)
                          let d4 := write_sectors d3
                            (cluster_lba bs st1.partition_start cluster)
                            bs.sectors_per_cluster (bufBytes nbuf4)
                          .ok (st2, d4, true)
                        else .ok (st2, d3, false)
                  else .ok (st1, d2, false)
    else .ok (st1, d, false)

/-- touch: as mkdir up to the free-counter update, with a file entry and no
contents written for the fresh cluster.  The same missing null check after
find_free_entry applies. -/
def touch (st : St) (d : Dev) (p : PartitionDesc) (path : List (List Nat))
    (file : List Nat) : Except Unit (St × Dev × Bool) :=
  match cache_disk_partition st d p with
  | .error e => .error e
  | .ok (st1, ok) =>
    if ok then
      match st1.fat_bs with
      | none => .error ()
      | some bs =>
        match find_cluster_number d bs st1.partition_start path with
        | .error e => .error e
        | .ok (false, _) => .ok (st1, d, false)
        | .ok (true, parent) =>
          let cluster := find_free_cluster_core d bs st1.partition_start
          if cluster = 0 then .ok (st1, d, false)
          else
            match read_sectors d (cluster_lba bs st1.partition_start parent)
                bs.sectors_per_cluster with
            | none => .ok (st1, d, false)
            | some b =>
              match find_free_entry (bufToEntries b (16 * bs.sectors_per_cluster))
                  (number_of_entries file) with
              | none => .error ()
              | some (buf2, start) =>
                let buf3 := init_file_entry true buf2 start file cluster
                let d1 := write_sectors d (cluster_lba bs st1.partition_start parent)
                  bs.sectors_per_cluster (bufBytes buf3)
                match write_fat_value_core d1 bs st1.partition_start cluster 268435448 with
                | .error e => .error e
                | .ok (d2, wok) =>
                  if wok then
                    match st1.fat_is with
                    | none => .error ()
                    | some isb =>
                      let isb2 := set_free_clusters isb
                        ((u32at isb 488 + 4294967295) % 4294967296)
                      let st2 := { st1 with fat_is := some isb2 }
                      match write_is st2 d2 p with
                      | .error e => .error e
                      | .ok (d3, iok) =>
                        if iok then .ok (st2, d3, true)
                        else .ok (st2, d3, false)
                  else .ok (st1, d2, false)
    else .ok (st1, d, false)

/-- Modelled from the spec: the FAT entry of cluster c, read at sector
fat_begin + (c * 4) / 512 with the intra-sector index c % 128 stated in §4.2
of the specification, masked to 28 bits. -/
def spec_fat_entry (d : Dev) (bs : BootSector) (ps c : Nat) : Option Nat :=
  match read_sectors d (ps + bs.reserved_sectors + c * 4 / 512) 1 with
  | some b => some (u32at b (4 * (c % 128)) % 268435456)
  | none => none

/-- Modelled from the spec: the reference rotate-add alias checksum over an
11-byte short name, on an unsigned 8-bit sum (§4.4 of the specification). -/
def alias_checksum_spec (n11 : List Nat) : Nat :=
  n11.foldl (fun s b => ((if s % 2 = 1 then 128 else 0) + s / 2 + b) % 256) 0

/-! Concrete images used to evaluate the embedded operations. -/

/-- Boot sector of a small test volume: 512-byte sectors, 1 sector per
cluster, 2 reserved sectors, 1 FAT of 1 sector, root cluster 2,
FS-information sector 1. -/
def imgBS : Nat → Nat := fun i =>
  if i = 12 then 2
  else if i = 13 then 1
  else if i = 14 then 2
  else if i = 16 then 1
  else if i = 36 then 1
  else if i = 44 then 2
  else if i = 48 then 1
  else 0

/-- FS-information sector with 100 free clusters. -/
def imgIS : Nat → Nat := fun o => if o = 488 then 100 else 0

/-- FAT sector: entries 0, 1 and 2 (the root) nonzero, all later entries
free. -/
def imgFAT : Nat → Nat := fun i => if i < 12 then 255 else 0

/-- An all-zero sector. -/
def zeroSec : Nat → Nat := fun _ => 0

/-- An all-0xFF sector. -/
def ffSec : Nat → Nat := fun _ => 255

def bs0 : BootSector := parse_bs imgBS

def p0 : PartitionDesc := { start := 0, uuid := 0 }

/-- Cache state holding the test volume, as left by a successful load. -/
def st0 : St :=
  { cached_disk := 0
    cached_partition := 0
    partition_start := 0
    fat_bs := some bs0
    fat_is := some imgIS }

/-- The C globals before any operation: both uuids are uint64 -1, both
cached sectors null. -/
def stInit : St :=
  { cached_disk := 18446744073709551615
    cached_partition := 18446744073709551615
    partition_start := 0
    fat_bs := none
    fat_is := none }

/-- Fresh test volume: boot sector, FS-information sector, FAT, an
all-zero root cluster at LBA 3 and an all-zero data cluster at LBA 4. -/
def devFresh : Dev :=
  { uuid := 0
    data := fun lba =>
      if lba = 0 then some imgBS
      else if lba = 1 then some imgIS
      else if lba = 2 then some imgFAT
      else if lba = 3 then some zeroSec
      else if lba = 4 then some zeroSec
      else none }

/-- The 12-byte name abcdefghijkl. -/
def name12 : List Nat := [97, 98, 99, 100, 101, 102, 103, 104, 105, 106, 107, 108]

/-- mkdir of a 12-byte name in the root of the fresh volume, then ls of the
new directory's path, observing the success flag and the listing. -/
def c7_run : Option (Bool × List FileRec) :=
  match mkdir st0 devFresh p0 [] name12 with
  | .ok (st1, dev1, b) =>
    match ls st1 dev1 p0 [name12] with
    | .ok (_, recs) => some (b, recs)
    | .error _ => none
  | .error _ => none

/-- Root cluster with all 16 entry slots in use and no end-of-directory
marker. -/
def fullRootSec : Nat → Nat := fun i => if i % 32 = 0 then 65 else 0

/-- The test volume with a full root directory cluster. -/
def devFullRoot : Dev :=
  { uuid := 0
    data := fun lba =>
      if lba = 0 then some imgBS
      else if lba = 1 then some imgIS
      else if lba = 2 then some imgFAT
      else if lba = 3 then some fullRootSec
      else none }

/-- Root cluster holding one short directory entry named D at cluster 3,
followed by the end-of-directory marker. -/
def rootDirSec : Nat → Nat := fun i =>
  if i = 0 then 68
  else if 1 ≤ i ∧ i ≤ 10 then 32
  else if i = 11 then 16
  else if i = 26 then 3
  else 0

/-- A data sector holding the byte 7 everywhere. -/
def sevenSec : Nat → Nat := fun _ => 7

/-- The test volume with the D directory entry in the root and its cluster 3
filled with sevens. -/
def devDirD : Dev :=
  { uuid := 0
    data := fun lba =>
      if lba = 0 then some imgBS
      else if lba = 1 then some imgIS
      else if lba = 2 then some imgFAT
      else if lba = 3 then some rootDirSec
      else if lba = 4 then some sevenSec
      else none }

/-- Boot sector of the C1 volume: 1 reserved sector, so the FAT starts at
LBA 1. -/
def imgBS1 : Nat → Nat := fun i =>
  if i = 12 then 2
  else if i = 13 then 1
  else if i = 14 then 1
  else if i = 16 then 1
  else if i = 36 then 1
  else if i = 44 then 2
  else 0

def bs1 : BootSector := parse_bs imgBS1

/-- Cache state for the C1 volume. -/
def stC1 : St :=
  { cached_disk := 0
    cached_partition := 0
    partition_start := 0
    fat_bs := some bs1
    fat_is := some imgIS }

/-- Device for the C1 check: only the FAT sector holding the entry of
cluster 128 (LBA 2 = fat_begin + 512/512) is readable. -/
def devC1 : Dev := { uuid := 0, data := fun lba => if lba = 2 then some zeroSec else none }

/-- A device on which every sector read fails. -/
def devDead : Dev := { uuid := 0, data := fun _ => none }

/-- Boot sector of the C3 volume: 2 sectors per cluster, 1 reserved sector,
1 FAT of 2 sectors. -/
def imgBS3 : Nat → Nat := fun i =>
  if i = 12 then 2
  else if i = 13 then 2
  else if i = 14 then 1
  else if i = 16 then 1
  else if i = 36 then 2
  else if i = 44 then 2
  else 0

def bs3 : BootSector := parse_bs imgBS3

/-- Second FAT sector of the C3 volume (clusters 128..255): only the entry
of cluster 130 (bytes 8..11) is free. -/
def imgFAT3b : Nat → Nat := fun i => if 8 ≤ i ∧ i < 12 then 0 else 255

/-- The C3 volume: FAT sectors at LBA 1 and 2, first data sector at LBA 3.
Every FAT entry is in use except cluster 130. -/
def devC3 : Dev :=
  { uuid := 0
    data := fun lba =>
      if lba = 1 then some ffSec
      else if lba = 2 then some imgFAT3b
      else if lba = 3 then some ffSec
      else none }

/-- Boot sector of the C9 witness device: every field zero except the
FS-information sector number 1. -/
def imgBS9 : Nat → Nat := fun i => if i = 48 then 1 else 0

/-- Device whose boot sector reads fine but whose FS-information sector read
fails. -/
def devC9 : Dev := { uuid := 0, data := fun lba => if lba = 0 then some imgBS9 else none }

/-- The cache state left behind by the failed load from devC9. -/
def stC9 : St :=
  { cached_disk := 0
    cached_partition := 0
    partition_start := 0
    fat_bs := some
      { bytes_per_sector := 0
        sectors_per_cluster := 0
        reserved_sectors := 0
        number_of_fat := 0
        sectors_per_fat := 0
        sectors_per_fat_long := 0
        root_directory_cluster_start := 0
        fs_information_sector := 1 }
    fat_is := none }

/-! Helper lemmas. -/

theorem getD_set_self {α : Type} (l : List α) (i : Nat) (v d : α) (h : i < l.length) :
    (l.set i v).getD i d = v := by
  simp [List.getD_eq_getElem?_getD, List.getElem?_set_self h]

theorem getD_set_ne {α : Type} (l : List α) (i j : Nat) (v d : α) (h : i ≠ j) :
    (l.set i v).getD j d = l.getD j d := by
  simp [List.getD_eq_getElem?_getD, List.getElem?_set_ne h]

/-! Claim theorems. -/

/-- Claim C1: the claim states that read_fat_entry and write_fat_entry address
the FAT entry of cluster c at intra-sector index c % 128.  The source indexes
the 128-entry sector buffer at c % 512, so at cluster 128 (the first cluster
of the second FAT sector) both operations access index 128 of a 128-entry
buffer, out of bounds, instead of index 0; neither delivers the claimed
masked value.  Here the FAT sector read succeeds and both operations fault. -/
theorem c1_fat_entry_index_out_of_bounds :
    read_fat_value stC1 devC1 128 = .error () ∧
    write_fat_value stC1 devC1 128 5 = .error () := ⟨rfl, rfl⟩

/-- Claim C2: the claim states that a failed read of the boot sector leaves
the cache empty and aborts the operation without any further fault.  On a
device whose boot-sector read fails, cache_bs nulls fat_bs and cache_is then
dereferences that null pointer for the FS-information sector number: the
reload faults rather than aborting cleanly. -/
theorem c2_bs_read_failure_faults :
    cache_disk_partition stInit devDead p0 = .error () := rfl

/-- Claim C3: the claim states that find_free_cluster scans the FAT linearly
from its first sector and returns the smallest free cluster for any
sectors_per_cluster.  On a volume with 2 sectors per cluster whose only free
FAT entry belongs to cluster 130 (second FAT sector, index 2), the source
advances j * sectors_per_cluster sectors per iteration, reads LBAs 1 and 3
instead of 1 and 2, never sees the free entry, and returns 0. -/
theorem c3_find_free_cluster_misses_free_cluster :
    find_free_cluster_core devC3 bs3 0 = 0 ∧ spec_fat_entry devC3 bs3 0 130 = some 0 :=
  ⟨rfl, rfl⟩

/-- Claim C5: the claim states that the stored alias checksum equals the
reference rotate-add computation on an unsigned 8-bit sum.  The source keeps
the sum in a signed char, so the shift in the rotation is an arithmetic shift
of a negative value whenever the running sum has bit 7 set; already for the
one-byte name a the LDE stores 119 while the unsigned reference gives 136. -/
theorem c5_checksum_signed_char_differs :
    ((init_entry true (List.replicate 4 dEnt) 0 [97] 5).1.getD 0 dEnt) 13 =
      alias_checksum_code [97] ∧
    alias_checksum_code [97] = 119 ∧
    alias_checksum_spec ([97] ++ List.replicate 10 32) = 136 := ⟨rfl, rfl, rfl⟩

/-- Claim C6: the claim states that mkdir and touch return false when
find_free_entry cannot place the entry run.  With the parent directory
cluster full (no end-of-directory marker, all 16 slots in use) and a free
cluster available, find_free_entry returns the null pointer and both
operations pass it straight to the entry initialisation: a fault, not a
false return. -/
theorem c6_full_directory_faults :
    mkdir st0 devFullRoot p0 [] [120] = .error () ∧
    touch st0 devFullRoot p0 [] [120] = .error () := ⟨rfl, rfl⟩

/-- Claim C7: the claim states that after a successful mkdir(p, n) the listing
of p ++ [n] holds exactly the two records dot and dot-dot.  For the 12-byte
name abcdefghijkl on a fresh volume, mkdir succeeds but writes a spurious
all-padding second LDE; the decoder in files then advances the accumulated
name length to 13 and emits a name with a 13th byte the encoder never wrote,
so path resolution misses the new directory and the listing is empty. -/
theorem c7_mkdir_then_ls_of_new_directory_empty : c7_run = some (true, []) := rfl

/-- Claim C4, counterexample: for the one-byte name a the claim asks for
0xFFFF padding of the exhausted code units, but the entry stores the uint16
0x00FF (the source assigns the int literal 0xFF); and for the 12-byte name
the claim asks for one LDE slot (the ceiling of 12 / 13) while the source
writes two, placing the SDE at slot 2. -/
theorem c4_counterexample :
    ldeUnit ((init_entry true (List.replicate 4 dEnt) 0 [97] 5).1.getD 0 dEnt) 1 = 255 ∧
    (init_entry true (List.replicate 4 dEnt) 0 name12 5).2 = 2 := ⟨rfl, rfl⟩

/-- Claim C8, counterexample: on a fresh directory cluster whose 16 slots are
all zero, find_free_entry with run length 1 succeeds at slot 0, yet afterwards
slots 1 and 2 (and more) still carry name[0] = 0x00, so the buffer does not
hold exactly one end-of-directory slot. -/
theorem c8_counterexample :
    (find_free_entry (List.replicate 16 dEnt) 1).map
      (fun r => (r.2, name0 (r.1.getD 1 dEnt), name0 (r.1.getD 2 dEnt))) =
      some (0, 0, 0) := rfl

/-- findZeroFrom started at index i finds an in-range index at or past i whose
entry has name[0] = 0. -/
theorem findZeroFrom_spec :
    ∀ (l : List Entry) (i k : Nat), findZeroFrom l i = some k →
      i ≤ k ∧ k - i < l.length ∧ name0 (l.getD (k - i) dEnt) = 0 := by
  intro l
  induction l with
  | nil => intro i k h; simp [findZeroFrom] at h
  | cons e r ih =>
    intro i k h
    unfold findZeroFrom at h
    split at h
    · rename_i hz
      obtain rfl : i = k := Option.some.inj h
      simpa using hz
    · obtain ⟨h1, h2, h3⟩ := ih (i + 1) k h
      refine ⟨by omega, by simp; omega, ?_⟩
      have : k - i = (k - (i + 1)) + 1 := by omega
      rw [this]
      simpa using h3

/-- A successful runScan returns a start at or before its end index. -/
theorem runScan_start_le :
    ∀ (l : List Entry) (n i cnt s e : Nat), runScan n l i cnt = some (s, e) → s ≤ e := by
  intro l
  induction l with
  | nil =>
    intro n i cnt s e h
    unfold runScan at h
    split at h
    · injection h with h; cases h; omega
    · cases h
  | cons a r ih =>
    intro n i cnt s e h
    unfold runScan at h
    split at h
    · split at h
      · injection h with h; cases h; omega
      · exact ih n (i + 1) (cnt + 1) s e h
    · exact ih n (i + 1) 0 s e h

/-- A successful downScan started with an empty accumulator returns an index
strictly above seqEnd and at most the starting index. -/
theorem downScan_spec (buf : List Entry) (seqEnd : Nat) :
    ∀ (i : Nat) (acc : Option Nat) (m : Nat), downScan buf seqEnd i acc = some m →
      (seqEnd < m ∧ m ≤ i) ∨ acc = some m := by
  intro i
  induction i with
  | zero => intro acc m h; exact Or.inr h
  | succ i ih =>
    intro acc m h
    unfold downScan at h
    split at h
    · exact Or.inr h
    · split at h
      · rcases ih (some (i + 1)) m h with h1 | h1
        · exact Or.inl ⟨h1.1, by omega⟩
        · injection h1 with h1; subst h1; exact Or.inl ⟨by omega, Nat.le_refl _⟩
      · exact Or.inr h

/-- Claim C8, amended: when the directory-cluster buffer holds exactly one
slot with name[0] = 0x00 and find_free_entry succeeds, afterwards the buffer
again holds exactly one such slot and it lies at or after the allocated run. -/
theorem find_free_entry_unique_end_marker
    (buf : List Entry) (n : Nat) (buf' : List Entry) (start : Nat) (u : Nat)
    (hu : u < buf.length) (huz : name0 (buf.getD u dEnt) = 0)
    (huniq : ∀ j, j < buf.length → name0 (buf.getD j dEnt) = 0 → j = u)
    (h : find_free_entry buf n = some (buf', start)) :
    ∃ w, w < buf'.length ∧ name0 (buf'.getD w dEnt) = 0 ∧
      (∀ j, j < buf'.length → name0 (buf'.getD j dEnt) = 0 → j = w) ∧ start ≤ w := by
  unfold find_free_entry at h
  split at h
  · cases h
  · rename_i endIdx hz
    split at h
    · cases h
    · rename_i s e hr
      have hse : s ≤ e := runScan_start_le buf n 0 0 s e hr
      obtain ⟨-, hzlt, hz0⟩ := findZeroFrom_spec buf 0 endIdx hz
      rw [Nat.sub_zero] at hzlt hz0
      have hendu : endIdx = u := huniq endIdx hzlt hz0
      split at h
      · rename_i hle
        split at h
        · cases h
        · rename_i newEnd hd
          simp only [Option.some.injEq, Prod.mk.injEq] at h
          obtain ⟨h1, h2⟩ := h
          subst h2
          rcases downScan_spec buf e (buf.length - 1) none newEnd hd with hnew | hnew
          · have hlen0 : 0 < buf.length := by omega
            have hnewlt : newEnd < buf.length := by omega
            have hne : newEnd ≠ endIdx := by omega
            have hlen' : buf'.length = buf.length := by
              rw [← h1]; simp
            refine ⟨newEnd, by omega, ?_, ?_, by omega⟩
            · rw [← h1, getD_set_self _ _ _ _ (by simpa using hnewlt)]
              simp [setName0, setByte, name0]
            · intro j hj hj0
              by_cases hjn : j = newEnd
              · exact hjn
              · exfalso
                rw [← h1, getD_set_ne _ _ _ _ _ (fun hx => hjn hx.symm)] at hj0
                by_cases hje : j = endIdx
                · subst hje
                  rw [getD_set_self _ _ _ _ hzlt] at hj0
                  simp [setName0, setByte, name0] at hj0
                · rw [getD_set_ne _ _ _ _ _ (fun hx => hje hx.symm)] at hj0
                  have hjlen : j < buf.length := by
                    have : buf'.length = buf.length := by rw [← h1]; simp
                    omega
                  exact hje (by rw [huniq j hjlen hj0, hendu])
          · cases hnew
      · rename_i hle
        simp only [Option.some.injEq, Prod.mk.injEq] at h
        obtain ⟨h1, h2⟩ := h
        subst h2
        subst h1
        exact ⟨u, hu, huz, huniq, by omega⟩

/-- The concrete buffer of the C8 witness: a used slot, the single
end-of-directory slot, an unused slot. -/
def c8buf : List Entry := [fun _ => 65, dEnt, fun j => if j = 0 then 229 else 0]

/-- The buffer find_free_entry produces from c8buf with run length 1. -/
def c8buf2 : List Entry :=
  (c8buf.set 1 (setName0 (c8buf.getD 1 dEnt) 229)).set 2
    (setName0 ((c8buf.set 1 (setName0 (c8buf.getD 1 dEnt) 229)).getD 2 dEnt) 0)

/-- Witness for the amended claim C8 at the concrete buffer c8buf. -/
theorem c8_amended_witness :
    ∃ w, w < c8buf2.length ∧ name0 (c8buf2.getD w dEnt) = 0 ∧
      (∀ j, j < c8buf2.length → name0 (c8buf2.getD j dEnt) = 0 → j = w) ∧ 1 ≤ w :=
  find_free_entry_unique_end_marker c8buf 1 c8buf2 1 1 (by decide) (by decide)
    (by decide) rfl

/-- Every code unit of an LFN stream fits in a uint16 when the name is made
of bytes. -/
theorem ldeUnitValue_lt (name : List Nat) (hb : ∀ b ∈ name, b < 256) (idx : Nat) :
    ldeUnitValue name idx < 65536 := by
  unfold ldeUnitValue
  split
  · rename_i h
    have hmem : name.getD idx 0 ∈ name := by
      rw [List.getD_eq_getElem?_getD, List.getElem?_eq_getElem h]
      simp
    have := hb _ hmem
    unfold sext16
    split <;> omega
  · omega

/-- Reading code unit u back from a written LDE through the shared 32-byte
layout recovers the value the loop stored. -/
theorem ldeUnit_mkLDE (name : List Nat) (seq seqs csum i0 u : Nat) (hu : u < 13)
    (hb : ldeUnitValue name (i0 + u) < 65536) :
    ldeUnit (mkLDE name seq seqs csum i0) u = ldeUnitValue name (i0 + u) := by
  interval_cases u <;>
    · simp only [ldeUnit, ldeUnitOff, mkLDE, entryU16, byteOfU16]
      norm_num [Nat.add_assoc]
      first
      | omega
      | (simp only [Nat.add_zero] at hb; omega)

/-- Unfolding of the LDE loop of init_entry: slot characterisation inside the
written range and preservation outside it. -/
theorem writeLFNAux_spec (name : List Nat) (seqs csum : Nat) :
    ∀ (r seq : Nat) (buf : List Entry) (pos : Nat), pos + r ≤ buf.length →
      (writeLFNAux name seqs csum r seq buf pos).length = buf.length ∧
      (∀ t, t < r →
        (writeLFNAux name seqs csum r seq buf pos).getD (pos + t) dEnt =
          mkLDE name (seq + t) seqs csum (13 * (seq + t))) ∧
      (∀ j, j < pos ∨ pos + r ≤ j →
        (writeLFNAux name seqs csum r seq buf pos).getD j dEnt = buf.getD j dEnt) := by
  intro r
  induction r with
  | zero =>
    intro seq buf pos hle
    exact ⟨rfl, fun t ht => absurd ht (by omega), fun j hj => rfl⟩
  | succ r ih =>
    intro seq buf pos hle
    have hposlt : pos < buf.length := by omega
    have hlen1 : (buf.set pos (mkLDE name seq seqs csum (13 * seq))).length = buf.length := by
      simp
    obtain ⟨ihlen, ihin, ihout⟩ :=
      ih (seq + 1) (buf.set pos (mkLDE name seq seqs csum (13 * seq))) (pos + 1) (by omega)
    have hunf : writeLFNAux name seqs csum (r + 1) seq buf pos =
        writeLFNAux name seqs csum r (seq + 1)
          (buf.set pos (mkLDE name seq seqs csum (13 * seq))) (pos + 1) := rfl
    refine ⟨by rw [hunf, ihlen, hlen1], ?_, ?_⟩
    · intro t ht
      rw [hunf]
      cases t with
      | zero =>
        simp only [Nat.add_zero]
        rw [ihout pos (Or.inl (by omega)), getD_set_self _ _ _ _ hposlt]
      | succ t =>
        have h1 : pos + (t + 1) = (pos + 1) + t := by omega
        have h2 : (seq + 1) + t = seq + (t + 1) := by omega
        rw [h1, ihin t (by omega), h2]
    · intro j hj
      have hj' : j < pos + 1 ∨ (pos + 1) + r ≤ j := by omega
      rw [hunf, ihout j hj', getD_set_ne _ _ _ _ _ (by omega)]

/-- Claim C4, amended: for a nonempty byte name, init_entry with the LFN
prelude writes exactly (len - 1) / 11 + 1 LDE slots (not the ceiling of
len / 13) immediately before the SDE, with ascending sequence numbers, bit
0x40 only on the last, attribute 0x0F, zero reserved and starting-cluster
fields, the name bytes distributed over the 5+6+2 code units 13 per slot and
sign-extended to UCS-2, exhausted units padded with the uint16 0x00FF (not
0xFFFF), and every slot outside the run plus SDE untouched. -/
theorem init_entry_lfn_layout
    (buf : List Entry) (pos : Nat) (name : List Nat) (cluster : Nat)
    (_hlen : 1 ≤ name.length) (hbytes : ∀ b ∈ name, b < 256)
    (hpos : pos + ((name.length - 1) / 11 + 1) < buf.length) :
    (init_entry true buf pos name cluster).2 = pos + ((name.length - 1) / 11 + 1) ∧
    (∀ s, s < (name.length - 1) / 11 + 1 →
      ((init_entry true buf pos name cluster).1.getD (pos + s) dEnt) 0 =
          (if s = (name.length - 1) / 11 then Nat.lor (s + 1) 64 else s + 1) ∧
      ((init_entry true buf pos name cluster).1.getD (pos + s) dEnt) 11 = 15 ∧
      ((init_entry true buf pos name cluster).1.getD (pos + s) dEnt) 12 = 0 ∧
      entryU16 ((init_entry true buf pos name cluster).1.getD (pos + s) dEnt) 26 = 0 ∧
      (∀ u, u < 13 →
        ldeUnit ((init_entry true buf pos name cluster).1.getD (pos + s) dEnt) u =
          (if 13 * s + u < name.length then sext16 (name.getD (13 * s + u) 0) else 255))) ∧
    (∀ j, j < buf.length → j < pos ∨ pos + ((name.length - 1) / 11 + 1) < j →
      (init_entry true buf pos name cluster).1.getD j dEnt = buf.getD j dEnt) := by
  obtain ⟨wlen, win, wout⟩ :=
    writeLFNAux_spec name ((name.length - 1) / 11 + 1) (alias_checksum_code name)
      ((name.length - 1) / 11 + 1) 0 buf pos (by omega)
  have hfst : ∀ s, s < (name.length - 1) / 11 + 1 →
      (init_entry true buf pos name cluster).1.getD (pos + s) dEnt =
        mkLDE name s ((name.length - 1) / 11 + 1) (alias_checksum_code name) (13 * s) := by
    intro s hs
    show ((writeLFNAux name ((name.length - 1) / 11 + 1) (alias_checksum_code name)
        ((name.length - 1) / 11 + 1) 0 buf pos).set (pos + ((name.length - 1) / 11 + 1))
          _).getD (pos + s) dEnt = _
    rw [getD_set_ne _ _ _ _ _ (by omega)]
    have := win s hs
    rw [Nat.zero_add] at this
    exact this
  refine ⟨rfl, ?_, ?_⟩
  · intro s hs
    rw [hfst s hs]
    refine ⟨?_, rfl, rfl, ?_, ?_⟩
    · show (if s = (name.length - 1) / 11 + 1 - 1 then Nat.lor (s + 1) 64 else s + 1) = _
      norm_num
    · show (0 : Nat) + 256 * 0 = 0
      norm_num
    · intro u hu
      rw [ldeUnit_mkLDE name s _ _ _ u hu (ldeUnitValue_lt name hbytes _)]
      unfold ldeUnitValue
      rfl
  · intro j hjlen hj
    show ((writeLFNAux name ((name.length - 1) / 11 + 1) (alias_checksum_code name)
        ((name.length - 1) / 11 + 1) 0 buf pos).set (pos + ((name.length - 1) / 11 + 1))
          _).getD j dEnt = _
    rw [getD_set_ne _ _ _ _ _ (by omega), wout j (by omega)]

/-- Witness for the amended claim C4 at the one-byte name a: the SDE lands one
slot after the prelude and the first code unit holds the first name byte. -/
theorem c4_amended_witness :
    (init_entry true (List.replicate 4 dEnt) 0 [97] 5).2 =
      0 + (([97].length - 1) / 11 + 1) ∧
    ldeUnit ((init_entry true (List.replicate 4 dEnt) 0 [97] 5).1.getD (0 + 0) dEnt) 0 =
      (if 13 * 0 + 0 < [97].length then sext16 ([97].getD (13 * 0 + 0) 0) else 255) := by
  have h := init_entry_lfn_layout (List.replicate 4 dEnt) 0 [97] 5 (by decide) (by decide)
    (by decide)
  exact ⟨h.1, (h.2.1 0 (by decide)).2.2.2.2 0 (by decide)⟩

/-- A cache reload that completes with failure records the addressed pair and
leaves the two cached sectors unable to pass the presence check. -/
theorem cache_failure_state (st : St) (d : Dev) (p : PartitionDesc) (st' : St)
    (h : cache_disk_partition st d p = .ok (st', false)) :
    st'.cached_disk = d.uuid ∧ st'.cached_partition = p.uuid ∧
      (st'.fat_bs.isSome && st'.fat_is.isSome) = false := by
  unfold cache_disk_partition at h
  split at h
  · rename_i hc
    simp only [Except.ok.injEq, Prod.mk.injEq] at h
    obtain ⟨h1, h2⟩ := h
    subst h1
    exact ⟨hc.1, hc.2, h2⟩
  · dsimp only at h
    split at h
    · cases h
    · rename_i st3 hc3
      simp only [Except.ok.injEq, Prod.mk.injEq] at h
      obtain ⟨h1, h2⟩ := h
      subst h1
      exact ⟨rfl, rfl, h2⟩

/-- Claim C9: when a cache load completes with failure for a (disk, partition)
pair, the cached identifiers are nevertheless updated to that pair, and every
subsequent operation addressing the same pair returns its generic failure
value with the state unchanged, whatever the disk now holds — in particular
without re-reading the boot or FS-information sectors. -/
theorem cache_failure_is_sticky (st : St) (d : Dev) (p : PartitionDesc) (st' : St)
    (h : cache_disk_partition st d p = .ok (st', false)) :
    st'.cached_disk = d.uuid ∧ st'.cached_partition = p.uuid ∧
    ∀ (data2 : Nat → Option (Nat → Nat)) (path : List (List Nat)) (fname : List Nat),
      free_size st' ⟨d.uuid, data2⟩ p = .ok (st', 0) ∧
      ls st' ⟨d.uuid, data2⟩ p path = .ok (st', []) ∧
      read_file st' ⟨d.uuid, data2⟩ p path fname = .ok (st', []) ∧
      mkdir st' ⟨d.uuid, data2⟩ p path fname = .ok (st', ⟨d.uuid, data2⟩, false) ∧
      touch st' ⟨d.uuid, data2⟩ p path fname = .ok (st', ⟨d.uuid, data2⟩, false) := by
  obtain ⟨h1, h2, h3⟩ := cache_failure_state st d p st' h
  refine ⟨h1, h2, ?_⟩
  intro data2 path fname
  have hcache : cache_disk_partition st' ⟨d.uuid, data2⟩ p = .ok (st', false) := by
    unfold cache_disk_partition
    rw [if_pos ⟨h1, h2⟩, h3]
  refine ⟨?_, ?_, ?_, ?_, ?_⟩
  · unfold free_size; rw [hcache]; rfl
  · unfold ls; rw [hcache]; rfl
  · unfold read_file; rw [hcache]; rfl
  · unfold mkdir; rw [hcache]; rfl
  · unfold touch; rw [hcache]; rfl

/-- Witness for claim C9: against devC9 the boot sector loads but the
FS-information read fails; the load completes with failure into state stC9,
which then short-circuits every operation on the same pair even when the
device refuses every read. -/
theorem cache_failure_is_sticky_witness :
    stC9.cached_disk = devC9.uuid ∧
    free_size stC9 ⟨devC9.uuid, fun _ => none⟩ p0 = .ok (stC9, 0) ∧
    mkdir stC9 ⟨devC9.uuid, fun _ => none⟩ p0 [] [] =
      .ok (stC9, ⟨devC9.uuid, fun _ => none⟩, false) := by
  have h := cache_failure_is_sticky stInit devC9 p0 stC9 rfl
  exact ⟨h.1, (h.2.2 (fun _ => none) [] []).1, (h.2.2 (fun _ => none) [] []).2.2.2.1⟩

/-- A record mkRecord marks as a directory carries size
sectors_per_cluster * 512. -/
theorem mkRecord_dir_size (bs : BootSector) (st : DecSt) (e : Entry)
    (h : (mkRecord bs st e).1.directory = true) :
    (mkRecord bs st e).1.size = bs.sectors_per_cluster * 512 := by
  have hsz : (mkRecord bs st e).1.size =
      if (mkRecord bs st e).1.directory then bs.sectors_per_cluster * 512
      else entryU32 e 28 := by
    unfold mkRecord
    dsimp only
    split <;> rfl
  rw [hsz, h]
  simp

/-- Every directory record decodeEntries emits carries size
sectors_per_cluster * 512. -/
theorem decodeEntries_dir_size (bs : BootSector) :
    ∀ (es : List Entry) (st : DecSt) (r : FileRec),
      r ∈ (decodeEntries bs es st).1 → r.directory = true →
      r.size = bs.sectors_per_cluster * 512 := by
  intro es
  induction es with
  | nil => intro st r hr hd; simp [decodeEntries] at hr
  | cons e rest ih =>
    intro st r hr hd
    unfold decodeEntries at hr
    split at hr
    · simp at hr
    · split at hr
      · exact ih st r hr hd
      · split at hr
        · exact ih (decodeLDE st e) r hr hd
        · dsimp only at hr
          rcases List.mem_cons.mp hr with hr | hr
          · subst hr; exact mkRecord_dir_size bs st e hd
          · exact ih (mkRecord bs st e).2 r hr hd

/-- Every directory record in a successful files traversal carries size
sectors_per_cluster * 512. -/
theorem filesAux_dir_size (d : Dev) (bs : BootSector) (ps : Nat) :
    ∀ (fuel cn : Nat) (st : DecSt) (recs : List FileRec) (r : FileRec),
      filesAux d bs ps fuel cn st = .ok recs → r ∈ recs → r.directory = true →
      r.size = bs.sectors_per_cluster * 512 := by
  intro fuel
  induction fuel with
  | zero =>
    intro cn st recs r h hr hd
    unfold filesAux at h
    obtain rfl : ([] : List FileRec) = recs := by injection h
    simp at hr
  | succ fuel ih =>
    intro cn st recs r h hr hd
    unfold filesAux at h
    split at h
    · obtain rfl : ([] : List FileRec) = recs := by injection h
      simp at hr
    · rename_i b hb
      split at h
      · rename_i recs1 x hdec
        obtain rfl : recs1 = recs := by injection h
        have h1 : recs1 =
            (decodeEntries bs (bufToEntries b (16 * bs.sectors_per_cluster)) st).1 := by
          rw [hdec]
        exact decodeEntries_dir_size bs _ st r (h1 ▸ hr) hd
      · rename_i recs1 st2 hdec
        have h1 : recs1 =
            (decodeEntries bs (bufToEntries b (16 * bs.sectors_per_cluster)) st).1 := by
          rw [hdec]
        split at h
        · cases h
        · rename_i nxt hnxt
          split at h
          · obtain rfl : recs1 = recs := by injection h
            exact decodeEntries_dir_size bs _ st r (h1 ▸ hr) hd
          · split at h
            · obtain rfl : recs1 = recs := by injection h
              exact decodeEntries_dir_size bs _ st r (h1 ▸ hr) hd
            · split at h
              · cases h
              · rename_i rest hrest
                obtain rfl : recs1 ++ rest = recs := by injection h
                rcases List.mem_append.mp hr with hr2 | hr2
                · exact decodeEntries_dir_size bs _ st r (h1 ▸ hr2) hd
                · exact ih nxt st2 rest r hrest hr2 hd

/-- Every directory record in a successful by-path listing carries size
sectors_per_cluster * 512. -/
theorem files_path_dir_size (d : Dev) (bs : BootSector) (ps : Nat)
    (path : List (List Nat)) (recs : List FileRec) (r : FileRec)
    (h : files_path d bs ps path = .ok recs) (hr : r ∈ recs) (hd : r.directory = true) :
    r.size = bs.sectors_per_cluster * 512 := by
  unfold files_path at h
  split at h
  · cases h
  · obtain rfl : ([] : List FileRec) = recs := by injection h
    simp at hr
  · exact filesAux_dir_size d bs ps FUEL _ dec0 recs r h hr hd

/-- Claim C10: when the name handed to read_file matches a directory record in
the parent listing, read_file does not fail or return empty: it takes the
directory's reported size sectors_per_cluster * 512 as the file size, and one
pass of the copy loop returns exactly those bytes read from the directory's
cluster. -/
theorem read_file_on_directory (st : St) (d : Dev) (p : PartitionDesc)
    (path : List (List Nat)) (fname : List Nat) (bs : BootSector)
    (recs : List FileRec) (f : FileRec) (cb : Nat → Nat)
    (hc : cache_disk_partition st d p = .ok (st, true))
    (hbs : st.fat_bs = some bs)
    (hrecs : files_path d bs st.partition_start path = .ok recs)
    (hf : recs.find? (fun r => r.file_name == fname) = some f)
    (hdir : f.directory = true)
    (hspc : 1 ≤ bs.sectors_per_cluster)
    (hread : read_sectors d (cluster_lba bs st.partition_start f.location)
      bs.sectors_per_cluster = some cb) :
    read_file st d p path fname =
      .ok (st, (List.range (512 * bs.sectors_per_cluster)).map cb) ∧
    ((List.range (512 * bs.sectors_per_cluster)).map cb).length =
      bs.sectors_per_cluster * 512 ∧
    (List.range (512 * bs.sectors_per_cluster)).map cb ≠ [] := by
  have hsize : f.size = bs.sectors_per_cluster * 512 :=
    files_path_dir_size d bs st.partition_start path recs f hrecs
      (List.mem_of_find?_eq_some hf) hdir
  have hloop : read_loop d bs st.partition_start f.size FUEL f.location [] =
      .ok ((List.range (512 * bs.sectors_per_cluster)).map cb) := by
    rw [show FUEL = 268435455 + 1 from rfl]
    unfold read_loop
    rw [hread]
    dsimp only
    rw [List.length_nil, Nat.sub_zero, hsize]
    rw [show min (512 * bs.sectors_per_cluster) (bs.sectors_per_cluster * 512) =
      512 * bs.sectors_per_cluster from by omega]
    rw [if_neg (by simp [hsize]; omega)]
    simp
  refine ⟨?_, by simp [Nat.mul_comm], ?_⟩
  · unfold read_file
    rw [hc]
    dsimp only
    rw [hbs]
    dsimp only
    rw [hrecs]
    dsimp only
    rw [hf]
    dsimp only
    rw [if_neg (show ¬ f.size = 0 by omega), hloop]
    rfl
  · rw [← List.length_pos]
    simp
    omega

/-- The record for the D directory entry of devDirD. -/
def c10rec : FileRec :=
  { file_name := [68], hidden := false, system := false, directory := true
    size := 512, location := 3 }

/-- The cluster bytes read_file sees for cluster 3 of devDirD. -/
def c10cb : Nat → Nat := fun i =>
  match devDirD.data (4 + i / 512) with
  | some s => s (i % 512)
  | none => 0

/-- Witness for claim C10: reading the directory D of devDirD as a file
returns the 512 raw bytes of its cluster. -/
theorem read_file_on_directory_witness :
    read_file st0 devDirD p0 [] [68] =
      .ok (st0, (List.range (512 * bs0.sectors_per_cluster)).map c10cb) ∧
    ((List.range (512 * bs0.sectors_per_cluster)).map c10cb).length =
      bs0.sectors_per_cluster * 512 := by
  have h := read_file_on_directory st0 devDirD p0 [] [68] bs0 [c10rec] c10rec c10cb
    rfl rfl rfl rfl rfl (by decide) rfl
  exact ⟨h.1, h.2.1⟩

end Fat32
